import Mathlib

/-!
Verification of the in-process prediction monitoring engine
(`src/api/monitoring.py`, class `ModelMonitor`).

The embedding is a faithful translation of the Python source into pure
Lean definitions:

* `collections.deque(maxlen=W)` becomes a `List` together with the
  `push` operation that appends and then drops from the left down to
  capacity `W`;
* floating point values become exact rationals `ℚ` (the standard
  exact-arithmetic idealization of the numeric code);
* the `feature_values` defaultdict, whose keys are exactly the strings
  `f"feature_{i}"` for feature indices `i`, is an insertion-ordered
  association list keyed by the index `i` itself (the map
  `i ↦ "feature_{i}"` is injective, so this is a faithful renaming);
* Python exceptions (here: `ZeroDivisionError` of float division, which
  raises exactly when the denominator equals zero) become `Except`;
* `time.time()` becomes an explicit clock argument `now : ℚ` threaded to
  the operations that read it;
* the `threading.Lock` is not represented: every operation is modelled
  as one atomic state transformer, which is what the lock guarantees.
-/

namespace Monitoring

/-- `deque(maxlen=W).append x`: append `x`, then evict from the front
down to capacity `W`. -/
def push {α : Type} (W : Nat) (buf : List α) (x : α) : List α :=
  let b := buf ++ [x]
  b.drop (b.length - W)

/-- The mutable state of `ModelMonitor` (`__init__`, lines 13-21 of the
source): `window_size`, the three kinds of bounded buffers, the start
timestamp and the error counter.  The constructor's Python default for
`window_size` is `1000`. -/
structure ModelMonitor where
  window_size : Nat
  predictions : List Int
  latencies : List ℚ
  feature_values : List (Nat × List ℚ)
  start_time : ℚ
  error_count : Nat
deriving DecidableEq

/-- `ModelMonitor(window_size)` evaluated at clock value `now`
(`self.start_time = time.time()`). -/
def ModelMonitor.init (window_size : Nat) (now : ℚ) : ModelMonitor :=
  { window_size := window_size
    predictions := []
    latencies := []
    feature_values := []
    start_time := now
    error_count := 0 }

/-- `self.feature_values[key].append v` for one key of the defaultdict:
push onto the existing buffer for `key`, or lazily create a fresh buffer
at the end of the (insertion-ordered) dictionary. -/
def updateFeature (W : Nat) : List (Nat × List ℚ) → Nat → ℚ → List (Nat × List ℚ)
  | [], key, v => [(key, push W [] v)]
  | (k, buf) :: rest, key, v =>
      if k = key then (k, push W buf v) :: rest
      else (k, buf) :: updateFeature W rest key v

/-- `for i, value in enumerate(features): self.feature_values[f"feature_{i}"].append(float(value))`,
started at index `i`. -/
def logFeatures (W : Nat) (fv : List (Nat × List ℚ)) (i : Nat) : List ℚ → List (Nat × List ℚ)
  | [] => fv
  | v :: vs => logFeatures W (updateFeature W fv i v) (i + 1) vs

/-- `ModelMonitor.log_prediction(features, prediction, latency)`:
appends the prediction; appends the latency only when `latency` is
truthy (`if latency:` — `None` and `0.0` are falsy, every other float is
truthy); appends each feature value to its per-index buffer. -/
def log_prediction (m : ModelMonitor) (features : List ℚ) (prediction : Int)
    (latency : Option ℚ) : ModelMonitor :=
  { m with
    predictions := push m.window_size m.predictions prediction
    latencies :=
      match latency with
      | some l => if l = 0 then m.latencies else push m.window_size m.latencies l
      | none => m.latencies
    feature_values := logFeatures m.window_size m.feature_values 0 features }

/-- `ModelMonitor.log_error`: increments the error counter; the message
itself is not stored. -/
def log_error (m : ModelMonitor) : ModelMonitor :=
  { m with error_count := m.error_count + 1 }

/-- `np.mean` on a nonempty list (the code never takes a mean of an
empty buffer). -/
def mean (l : List ℚ) : ℚ := l.sum / l.length

/-- The `1e-8` guard term of the relative-change denominator. -/
def eps : ℚ := 1 / 100000000

/-- One value of the per-feature `drift_results` dict: either
`{"drift_detected": False, "reason": reason}` or
`{"drift_detected": d, "relative_change": rc, "threshold": th}`. -/
inductive FeatureReport where
  | insufficient (reason : String)
  | stats (drift_detected : Bool) (relative_change : ℚ) (threshold : ℚ)
deriving DecidableEq

/-- The `"drift_detected"` entry of a per-feature report (`False` in the
insufficient case). -/
def FeatureReport.flag : FeatureReport → Bool
  | .insufficient _ => false
  | .stats d _ _ => d

/-- The result dict of `detect_drift`: either the early
`{"drift_detected": False, "reason": "Insufficient data"}` (which has
neither a `feature_drift` map nor an `any_drift_detected` entry), or
`{"feature_drift": …, "any_drift_detected": …}`. -/
inductive DriftReport where
  | insufficientData
  | report (feature_drift : List (Nat × FeatureReport)) (any_drift_detected : Bool)
deriving DecidableEq

/-- The loop body of `detect_drift` for one feature buffer (lines
46-70): `recent = values[-100:]`, `older = values[-200:-100]` when at
least 200 samples exist, otherwise the "Insufficient historical data"
report; then `relative_change = abs((recent_mean - older_mean) / (older_mean + 1e-8))`
against the local constant `drift_threshold = 0.1`.  Python float
division raises `ZeroDivisionError` exactly when the denominator is
zero, modelled by `Except.error`. -/
def driftEntry (vals : List ℚ) : Except Unit FeatureReport :=
  let recent := vals.drop (vals.length - 100)
  if 200 ≤ vals.length then
    let older := (vals.drop (vals.length - 200)).take 100
    let recent_mean := mean recent
    let older_mean := mean older
    if older_mean + eps = 0 then .error ()
    else
      let relative_change := |(recent_mean - older_mean) / (older_mean + eps)|
      let drift_threshold : ℚ := 1 / 10
      .ok (.stats (decide (relative_change > drift_threshold)) relative_change drift_threshold)
  else .ok (.insufficient "Insufficient historical data")

/-- `for feature_name, values in self.feature_values.items(): …`,
building `drift_results` in iteration order; an exception raised at any
feature aborts the whole call. -/
def driftLoop : List (Nat × List ℚ) → Except Unit (List (Nat × FeatureReport))
  | [] => .ok []
  | (k, vals) :: rest =>
    match driftEntry vals with
    | .error e => .error e
    | .ok r =>
      match driftLoop rest with
      | .error e => .error e
      | .ok rs => .ok ((k, r) :: rs)

/-- `len(next(iter(self.feature_values.values()), []))`: the length of
the first-created feature's buffer, or `0` when no feature was ever
recorded. -/
def firstBufferLen (m : ModelMonitor) : Nat :=
  match m.feature_values with
  | [] => 0
  | (_, buf) :: _ => buf.length

/-- `ModelMonitor.detect_drift` (lines 39-75): the early global gate on
the first-created feature's buffer, then the per-feature loop, then
`any_drift_detected = any(r["drift_detected"] for r in drift_results.values())`. -/
def detect_drift (m : ModelMonitor) : Except Unit DriftReport :=
  if firstBufferLen m < 100 then .ok .insufficientData
  else
    match driftLoop m.feature_values with
    | .error e => .error e
    | .ok entries => .ok (.report entries (entries.any (fun p => p.2.flag)))

/-- The per-feature entry of `feature_statistics`.  `np.std` returns the
square root of `var` (the population variance, denominator `N`); the
model records the squared value `var` to stay inside `ℚ` — the square
root is injective and monotone on the nonnegatives, so no claim below is
affected by this renaming. -/
structure FeatureStats where
  min : ℚ
  max : ℚ
  mean : ℚ
  var : ℚ
deriving DecidableEq

/-- `np.min` on a nonempty list. -/
def listMin : List ℚ → ℚ
  | [] => 0
  | x :: xs => xs.foldl Min.min x

/-- `np.max` on a nonempty list. -/
def listMax : List ℚ → ℚ
  | [] => 0
  | x :: xs => xs.foldl Max.max x

/-- min/max/mean/population-variance of one feature buffer (lines
93-99; `np.std` squared, see `FeatureStats`). -/
def featureStats (vals : List ℚ) : FeatureStats :=
  { min := listMin vals
    max := listMax vals
    mean := mean vals
    var := mean (vals.map (fun v => (v - mean vals) ^ 2)) }

/-- `np.unique(predictions_list, return_counts=True)` turned into the
`prediction_counts` dict: the distinct predicted classes in ascending
order, each with its occurrence count. -/
def predictionCounts (ps : List Int) : List (Int × Nat) :=
  (ps.dedup.mergeSort (fun a b => decide (a ≤ b))).map (fun v => (v, ps.count v))

/-- The result dict of `get_statistics`.  The two branches of the source
return dicts with different key sets, modelled with `Option` fields:
`status` is present only in the empty-state result; `prediction_counts`
and `uptime_seconds` only in the populated one. -/
structure Statistics where
  request_count : Nat
  average_latency : ℚ
  error_count : Nat
  feature_statistics : List (Nat × FeatureStats)
  prediction_counts : Option (List (Int × Nat))
  uptime_seconds : Option ℚ
  status : Option String
deriving DecidableEq

/-- `ModelMonitor.get_statistics` (lines 77-114) evaluated at clock
value `now` (`uptime_seconds = time.time() - self.start_time`). -/
def get_statistics (m : ModelMonitor) (now : ℚ) : Statistics :=
  if m.predictions.isEmpty then
    { request_count := 0
      average_latency := 0
      error_count := m.error_count
      feature_statistics := []
      prediction_counts := none
      uptime_seconds := none
      status := some "No predictions made yet" }
  else
    { request_count := m.predictions.length
      average_latency := if m.latencies.isEmpty then 0 else mean m.latencies
      error_count := m.error_count
      feature_statistics :=
        (m.feature_values.filter (fun p => !p.2.isEmpty)).map
          (fun p => (p.1, featureStats p.2))
      prediction_counts := some (predictionCounts m.predictions)
      uptime_seconds := some (now - m.start_time)
      status := none }

/-- One prediction event as passed to `log_prediction`. -/
structure PredictionEvent where
  features : List ℚ
  prediction : Int
  latency : Option ℚ
deriving DecidableEq

/-- A sequence of `log_prediction` calls. -/
def recordAll (m : ModelMonitor) (es : List PredictionEvent) : ModelMonitor :=
  es.foldl (fun m e => log_prediction m e.features e.prediction e.latency) m

/-- The projection of a `Statistics` value onto every field except
`uptime_seconds`. -/
def statsIgnoringUptime (s : Statistics) :
    Nat × ℚ × Nat × List (Nat × FeatureStats) × Option (List (Int × Nat)) × Option String :=
  (s.request_count, s.average_latency, s.error_count, s.feature_statistics,
   s.prediction_counts, s.status)

/-- A monitor (window 1000, as the source default) holding exactly one
feature buffer — the state drift claims quantify over.  Reachable from
`ModelMonitor.init` by one `log_prediction` call per sample with a
one-element feature vector. -/
def singleFeatureMonitor (vals : List ℚ) : ModelMonitor :=
  { window_size := 1000
    predictions := []
    latencies := []
    feature_values := [(0, vals)]
    start_time := 0
    error_count := 0 }

/-- `recent_mean` of the drift loop: the mean of `values[-100:]`. -/
def recentMean (vals : List ℚ) : ℚ := mean (vals.drop (vals.length - 100))

/-- `older_mean` of the drift loop: the mean of `values[-200:-100]`. -/
def olderMean (vals : List ℚ) : ℚ := mean ((vals.drop (vals.length - 200)).take 100)

/-- Modelled from the spec: section 4.4 describes the per-feature report
of a detector that treats every feature key independently ("insufficient
data" below 100 samples, "insufficient historical data" below 200) and
computes `|mean(recent) - mean(older)| / (|mean(older)| + ε)` against a
configurable `drift_threshold`.  The source constructor takes no such
parameter and `detect_drift` hard-codes `0.1`, so this detector exists
only in the spec's words; it is defined for comparison with
`detect_drift`. -/
def specEntry (drift_threshold : ℚ) (p : Nat × List ℚ) : Nat × FeatureReport :=
  if p.2.length < 100 then (p.1, FeatureReport.insufficient "Insufficient data")
  else if p.2.length < 200 then
    (p.1, FeatureReport.insufficient "Insufficient historical data")
  else
    (p.1, FeatureReport.stats
      (decide (|recentMean p.2 - olderMean p.2| / (|olderMean p.2| + eps) > drift_threshold))
      (|recentMean p.2 - olderMean p.2| / (|olderMean p.2| + eps))
      drift_threshold)

/-- Modelled from the spec: the aggregate drift report of the
spec-described configurable-threshold detector (see `specEntry`):
per-feature reports plus the logical OR of the per-feature flags. -/
def detect_drift_spec (m : ModelMonitor) (drift_threshold : ℚ) : DriftReport :=
  .report (m.feature_values.map (specEntry drift_threshold))
    ((m.feature_values.map (specEntry drift_threshold)).any (fun p => p.2.flag))

/-- The association list `[(i, bs₀), (i+1, bs₁), …]`: the canonical shape
of `feature_values` after events whose feature vectors start at index
`i`. -/
def canonFrom : Nat → List (List ℚ) → List (Nat × List ℚ)
  | _, [] => []
  | i, b :: bs => (i, b) :: canonFrom (i + 1) bs

/-- The effect of one `log_prediction` call's feature loop on the stack
of per-index buffers: push pointwise, lazily creating buffers for
indices beyond the current stack, and leaving buffers beyond the feature
vector untouched. -/
def zipPush (W : Nat) : List (List ℚ) → List ℚ → List (List ℚ)
  | bs, [] => bs
  | [], v :: vs => push W [] v :: zipPush W [] vs
  | b :: bs, v :: vs => push W b v :: zipPush W bs vs

/-- Three concrete events (window 2 in the witness): each with one
feature, a prediction and a nonzero latency. -/
def eventsC1 : List PredictionEvent :=
  [⟨[5], 0, some 1⟩, ⟨[6], 1, some 2⟩, ⟨[7], 0, some 3⟩]

/-- A reachable monitor whose first-created feature has 200 samples and
whose second has 50 (e.g. 150 one-feature events followed by 50
two-feature events, window 1000). -/
def monitorC2 : ModelMonitor :=
  { window_size := 1000
    predictions := []
    latencies := []
    feature_values := [(0, List.replicate 200 1), (1, List.replicate 50 1)]
    start_time := 0
    error_count := 0 }

/-- A buffer whose older window has mean `-1/2` and recent window mean
`1/2`: the sign of the older mean separates the code's relative-change
denominator `older_mean + ε` from the spec's `|older_mean| + ε`. -/
def valsC3 : List ℚ :=
  List.replicate 100 (-(1 / 2) : ℚ) ++ List.replicate 100 ((1 / 2) : ℚ)

/-- A buffer whose older window has mean 5 and recent window mean 6:
relative change `1/(5 + 1e-8) ≈ 0.2`. -/
def valsC6 : List ℚ := List.replicate 100 (5 : ℚ) ++ List.replicate 100 (6 : ℚ)

/-- A monitor with one recorded prediction (latency absent). -/
def monitorC8 : ModelMonitor :=
  log_prediction (ModelMonitor.init 1000 0) [1] 0 none

/-! ### Buffer lemmas -/

theorem length_push {α : Type} (W : Nat) (buf : List α) (x : α) :
    (push W buf x).length = min (buf.length + 1) W := by
  simp [push]
  omega

theorem push_le_capacity {α : Type} (W : Nat) (buf : List α) (x : α) :
    (push W buf x).length ≤ W := by
  rw [length_push]
  omega

theorem foldl_push_eq_drop {α : Type} (W : Nat) :
    ∀ (xs a : List α), a.length ≤ W →
      List.foldl (push W) a xs = (a ++ xs).drop (a.length + xs.length - W) := by
  intro xs
  induction xs with
  | nil =>
    intro a ha
    have h0 : a.length + List.length ([] : List α) - W = 0 := by simp; omega
    rw [h0, List.append_nil, List.drop_zero, List.foldl_nil]
  | cons x xs ih =>
    intro a ha
    rw [List.foldl_cons, ih (push W a x) (push_le_capacity W a x)]
    have hd : push W a x ++ xs = ((a ++ [x]) ++ xs).drop (a.length + 1 - W) := by
      rw [List.drop_append_of_le_length
        (by simp only [List.length_append, List.length_singleton]; omega)]
      rw [push]
      simp
    rw [hd, List.drop_drop]
    rw [List.append_assoc, List.singleton_append]
    congr 1
    rw [length_push]
    simp only [List.length_cons]
    omega

theorem foldl_push_nil_length {α : Type} (W : Nat) (xs : List α) :
    (List.foldl (push W) [] xs).length = min xs.length W := by
  rw [foldl_push_eq_drop W xs [] (by simp)]
  simp
  omega

/-! ### Feature-dictionary lemmas -/

theorem logFeatures_skip (W : Nat) (k0 : Nat) (b0 : List ℚ) :
    ∀ (vs : List ℚ) (rest : List (Nat × List ℚ)) (i : Nat),
      (∀ j, i ≤ j → k0 ≠ j) →
      logFeatures W ((k0, b0) :: rest) i vs = (k0, b0) :: logFeatures W rest i vs := by
  intro vs
  induction vs with
  | nil => intro rest i _; rfl
  | cons v vs ih =>
    intro rest i h
    have hne : k0 ≠ i := h i (Nat.le_refl i)
    simp only [logFeatures, updateFeature, if_neg hne]
    exact ih (updateFeature W rest i v) (i + 1) (fun j hj => h j (by omega))

theorem logFeatures_canon (W : Nat) :
    ∀ (vs : List ℚ) (bs : List (List ℚ)) (i : Nat),
      logFeatures W (canonFrom i bs) i vs = canonFrom i (zipPush W bs vs) := by
  intro vs
  induction vs with
  | nil => intro bs i; cases bs <;> rfl
  | cons v vs ih =>
    intro bs i
    cases bs with
    | nil =>
      have h1 : logFeatures W ([] : List (Nat × List ℚ)) i (v :: vs)
          = logFeatures W [(i, push W [] v)] (i + 1) vs := by
        simp [logFeatures, updateFeature]
      have h2 := ih [] (i + 1)
      simp only [canonFrom] at h2
      simp only [canonFrom]
      rw [h1, logFeatures_skip W i (push W [] v) vs [] (i + 1) (fun j hj => by omega)]
      rw [h2]
    | cons b bs =>
      have h1 : logFeatures W ((i, b) :: canonFrom (i + 1) bs) i (v :: vs)
          = logFeatures W ((i, push W b v) :: canonFrom (i + 1) bs) (i + 1) vs := by
        simp [logFeatures, updateFeature]
      simp only [canonFrom, zipPush]
      rw [h1, logFeatures_skip W i (push W b v) vs (canonFrom (i + 1) bs) (i + 1)
        (fun j hj => by omega), ih bs (i + 1)]

theorem zipPush_fresh_length (W : Nat) (vs : List ℚ) :
    (zipPush W [] vs).length = vs.length ∧
      ∀ b ∈ zipPush W [] vs, b.length = min 1 W := by
  induction vs with
  | nil => simp [zipPush]
  | cons v vs ih =>
    simp only [zipPush, List.length_cons, List.mem_cons]
    refine ⟨by rw [ih.1], ?_⟩
    rintro b (rfl | hb)
    · rw [length_push]; simp
    · exact ih.2 b hb

theorem zipPush_step_length (W n : Nat) :
    ∀ (vs : List ℚ) (bs : List (List ℚ)), bs.length = vs.length →
      (∀ b ∈ bs, b.length = min n W) →
      (zipPush W bs vs).length = vs.length ∧
        ∀ b ∈ zipPush W bs vs, b.length = min (n + 1) W := by
  intro vs
  induction vs with
  | nil =>
    intro bs hlen _
    have : bs = [] := List.length_eq_zero.mp hlen
    simp [this, zipPush]
  | cons v vs ih =>
    intro bs hlen hb
    cases bs with
    | nil => simp at hlen
    | cons b bs =>
      simp only [zipPush, List.length_cons, List.mem_cons]
      have hlen' : bs.length = vs.length := by simpa using hlen
      have hb' : ∀ c ∈ bs, c.length = min n W := fun c hc => hb c (List.mem_cons_of_mem b hc)
      refine ⟨by rw [(ih bs hlen' hb').1], ?_⟩
      rintro c (rfl | hc)
      · rw [length_push, hb b (List.mem_cons_self b bs)]; omega
      · exact (ih bs hlen' hb').2 c hc

/-! ### Record-sequence lemmas -/

theorem recordAll_window_size : ∀ (es : List PredictionEvent) (m : ModelMonitor),
    (recordAll m es).window_size = m.window_size := by
  intro es
  induction es with
  | nil => intro m; rfl
  | cons e es ih => intro m; exact ih (log_prediction m e.features e.prediction e.latency)

theorem recordAll_error_count : ∀ (es : List PredictionEvent) (m : ModelMonitor),
    (recordAll m es).error_count = m.error_count := by
  intro es
  induction es with
  | nil => intro m; rfl
  | cons e es ih => intro m; exact ih (log_prediction m e.features e.prediction e.latency)

theorem recordAll_predictions : ∀ (es : List PredictionEvent) (m : ModelMonitor),
    (recordAll m es).predictions
      = List.foldl (push m.window_size) m.predictions (es.map (fun e => e.prediction)) := by
  intro es
  induction es with
  | nil => intro m; rfl
  | cons e es ih =>
    intro m
    rw [List.map_cons, List.foldl_cons]
    exact ih (log_prediction m e.features e.prediction e.latency)

theorem recordAll_latencies_length (W : Nat) :
    ∀ (es : List PredictionEvent) (m : ModelMonitor),
      m.window_size = W → m.latencies.length ≤ W →
      (∀ e ∈ es, ∃ v, e.latency = some v ∧ v ≠ 0) →
      (recordAll m es).latencies.length = min (m.latencies.length + es.length) W := by
  intro es
  induction es with
  | nil => intro m hw hb _; simp [recordAll]; omega
  | cons e es ih =>
    intro m hw hb hl
    obtain ⟨v, hv, hv0⟩ := hl e (List.mem_cons_self e es)
    have hm' : (log_prediction m e.features e.prediction e.latency).latencies
        = push W m.latencies v := by
      simp only [log_prediction, hv, hw]
      rw [if_neg hv0]
    have step := ih (log_prediction m e.features e.prediction e.latency)
      (by simp [log_prediction, hw])
      (by rw [hm']; exact push_le_capacity W m.latencies v)
      (fun e' he' => hl e' (List.mem_cons_of_mem e he'))
    simp only [recordAll, List.foldl_cons] at step ⊢
    rw [step, hm', length_push]
    simp only [List.length_cons]
    omega

theorem recordAll_feature_values (W : Nat) :
    ∀ (es : List PredictionEvent) (m : ModelMonitor) (bs : List (List ℚ)),
      m.window_size = W → m.feature_values = canonFrom 0 bs →
      (recordAll m es).feature_values
        = canonFrom 0 (es.foldl (fun bs e => zipPush W bs e.features) bs) := by
  intro es
  induction es with
  | nil => intro m bs _ hfv; simpa [recordAll] using hfv
  | cons e es ih =>
    intro m bs hw hfv
    have hm' : (log_prediction m e.features e.prediction e.latency).feature_values
        = canonFrom 0 (zipPush W bs e.features) := by
      simp only [log_prediction, hw, hfv]
      exact logFeatures_canon W e.features bs 0
    simp only [recordAll, List.foldl_cons] at ih ⊢
    exact ih (log_prediction m e.features e.prediction e.latency)
      (zipPush W bs e.features) (by simp [log_prediction, hw]) hm'

theorem stack_fold_length (W d : Nat) :
    ∀ (es : List PredictionEvent) (bs : List (List ℚ)) (n : Nat),
      (∀ e ∈ es, e.features.length = d) → bs.length = d →
      (∀ b ∈ bs, b.length = min n W) →
      (es.foldl (fun bs e => zipPush W bs e.features) bs).length = d ∧
        ∀ b ∈ es.foldl (fun bs e => zipPush W bs e.features) bs,
          b.length = min (n + es.length) W := by
  intro es
  induction es with
  | nil => intro bs n _ hlen hb; simpa using ⟨hlen, hb⟩
  | cons e es ih =>
    intro bs n hd hlen hb
    have hde : e.features.length = d := hd e (List.mem_cons_self e es)
    have hzp := zipPush_step_length W n e.features bs (by omega) hb
    have := ih (zipPush W bs e.features) (n + 1)
      (fun e' he' => hd e' (List.mem_cons_of_mem e he'))
      (by rw [hzp.1, hde]) hzp.2
    simp only [List.foldl_cons, List.length_cons]
    refine ⟨this.1, fun b hbmem => ?_⟩
    rw [this.2 b hbmem]
    omega

theorem canonFrom_length : ∀ (bs : List (List ℚ)) (i : Nat),
    (canonFrom i bs).length = bs.length := by
  intro bs
  induction bs with
  | nil => intro i; rfl
  | cons b bs ih => intro i; simp [canonFrom, ih]

theorem canonFrom_mem : ∀ (bs : List (List ℚ)) (i : Nat) (p : Nat × List ℚ),
    p ∈ canonFrom i bs → p.2 ∈ bs := by
  intro bs
  induction bs with
  | nil => intro i p hp; simp [canonFrom] at hp
  | cons b bs ih =>
    intro i p hp
    rcases List.mem_cons.mp hp with h | h
    · rw [h]; exact List.mem_cons_self b bs
    · exact List.mem_cons_of_mem b (ih (i + 1) p h)

/-! ### Drift-detection lemmas -/

theorem mean_replicate (n : Nat) (v : ℚ) (h : n ≠ 0) :
    mean (List.replicate n v) = v := by
  have hn : (n : ℚ) ≠ 0 := Nat.cast_ne_zero.mpr h
  simp only [mean, List.sum_replicate, List.length_replicate, nsmul_eq_mul]
  field_simp

/-- `driftEntry` with its intermediate `let` bindings inlined, for
rewriting. -/
theorem driftEntry_eq (vals : List ℚ) :
    driftEntry vals =
      if 200 ≤ vals.length then
        if mean ((vals.drop (vals.length - 200)).take 100) + eps = 0 then .error ()
        else
          .ok (.stats
            (decide (|(mean (vals.drop (vals.length - 100)) -
                mean ((vals.drop (vals.length - 200)).take 100)) /
                (mean ((vals.drop (vals.length - 200)).take 100) + eps)| > 1 / 10))
            (|(mean (vals.drop (vals.length - 100)) -
                mean ((vals.drop (vals.length - 200)).take 100)) /
                (mean ((vals.drop (vals.length - 200)).take 100) + eps)|)
            (1 / 10))
      else .ok (.insufficient "Insufficient historical data") := rfl

theorem driftEntry_short (vals : List ℚ) (h : vals.length < 200) :
    driftEntry vals = .ok (.insufficient "Insufficient historical data") := by
  rw [driftEntry_eq, if_neg (Nat.not_le.mpr h)]

theorem replicate_200_recent (v : ℚ) :
    (List.replicate 200 v).drop ((List.replicate 200 v).length - 100)
      = List.replicate 100 v := by
  rw [List.length_replicate, List.drop_replicate]

theorem replicate_200_older (v : ℚ) :
    ((List.replicate 200 v).drop ((List.replicate 200 v).length - 200)).take 100
      = List.replicate 100 v := by
  rw [List.length_replicate, List.drop_replicate, List.take_replicate]
  congr 1

theorem driftEntry_replicate_200 (v : ℚ) (h : v + eps ≠ 0) :
    driftEntry (List.replicate 200 v) = .ok (.stats false 0 (1 / 10)) := by
  rw [driftEntry_eq, replicate_200_older, replicate_200_recent]
  rw [if_pos (by rw [List.length_replicate])]
  rw [mean_replicate 100 v (by norm_num), if_neg h]
  rw [sub_self, zero_div, abs_zero]
  rw [decide_eq_false (by norm_num : ¬ ((0 : ℚ) > 1 / 10))]

theorem driftEntry_replicate_zero_denom (v : ℚ) (h : v + eps = 0) :
    driftEntry (List.replicate 200 v) = .error () := by
  rw [driftEntry_eq, replicate_200_older]
  rw [if_pos (by rw [List.length_replicate])]
  rw [mean_replicate 100 v (by norm_num), if_pos h]

theorem driftEntry_stats_inv (vals : List ℚ) (d : Bool) (rc th : ℚ)
    (h : driftEntry vals = .ok (.stats d rc th)) :
    th = 1 / 10 ∧ (d = true ↔ rc > 1 / 10) := by
  rw [driftEntry_eq] at h
  by_cases h2 : 200 ≤ vals.length
  · rw [if_pos h2] at h
    by_cases h3 : mean ((vals.drop (vals.length - 200)).take 100) + eps = 0
    · rw [if_pos h3] at h
      exact absurd h (by simp)
    · rw [if_neg h3] at h
      have h4 := FeatureReport.stats.inj (Except.ok.inj h)
      refine ⟨h4.2.2.symm, ?_⟩
      rw [← h4.1, ← h4.2.1]
      exact decide_eq_true_iff
  · rw [if_neg h2] at h
    exact absurd h (by simp)

theorem driftLoop_ok_mem :
    ∀ (fv : List (Nat × List ℚ)) (entries : List (Nat × FeatureReport)),
      driftLoop fv = .ok entries → ∀ k vals, (k, vals) ∈ fv →
        ∃ r, driftEntry vals = .ok r ∧ (k, r) ∈ entries := by
  intro fv
  induction fv with
  | nil => intro entries _ k vals hmem; simp at hmem
  | cons p rest ih =>
    intro entries hloop k vals hmem
    obtain ⟨k', vals'⟩ := p
    cases hE : driftEntry vals' with
    | error e => simp [driftLoop, hE] at hloop
    | ok r =>
      cases hL : driftLoop rest with
      | error e => simp [driftLoop, hE, hL] at hloop
      | ok rs =>
        simp only [driftLoop, hE, hL] at hloop
        obtain rfl : (k', r) :: rs = entries := by simpa using hloop
        rcases List.mem_cons.mp hmem with h | h
        · injection h with hk hv
          subst hk; subst hv
          exact ⟨r, hE, List.mem_cons_self _ _⟩
        · obtain ⟨r', hr', hmem'⟩ := ih rs hL k vals h
          exact ⟨r', hr', List.mem_cons_of_mem _ hmem'⟩

theorem driftLoop_entries_src :
    ∀ (fv : List (Nat × List ℚ)) (entries : List (Nat × FeatureReport)),
      driftLoop fv = .ok entries →
        ∀ p ∈ entries, ∃ vals, (p.1, vals) ∈ fv ∧ driftEntry vals = .ok p.2 := by
  intro fv
  induction fv with
  | nil =>
    intro entries hloop p hp
    simp only [driftLoop] at hloop
    obtain rfl : ([] : List (Nat × FeatureReport)) = entries := by simpa using hloop
    simp at hp
  | cons q rest ih =>
    intro entries hloop p hp
    obtain ⟨k', vals'⟩ := q
    cases hE : driftEntry vals' with
    | error e => simp [driftLoop, hE] at hloop
    | ok r =>
      cases hL : driftLoop rest with
      | error e => simp [driftLoop, hE, hL] at hloop
      | ok rs =>
        simp only [driftLoop, hE, hL] at hloop
        obtain rfl : (k', r) :: rs = entries := by simpa using hloop
        rcases List.mem_cons.mp hp with h | h
        · refine ⟨vals', ?_, ?_⟩
          · rw [h]; exact List.mem_cons_self _ _
          · rw [h]; simpa using hE
        · obtain ⟨vals, hv, hd⟩ := ih rs hL p h
          exact ⟨vals, List.mem_cons_of_mem _ hv, hd⟩

theorem detect_drift_report_inv (m : ModelMonitor)
    (entries : List (Nat × FeatureReport)) (b : Bool)
    (h : detect_drift m = .ok (.report entries b)) :
    driftLoop m.feature_values = .ok entries ∧
      b = entries.any (fun p => p.2.flag) ∧ ¬ firstBufferLen m < 100 := by
  by_cases hg : firstBufferLen m < 100
  · simp [detect_drift, hg] at h
  · cases hL : driftLoop m.feature_values with
    | error e => simp [detect_drift, hg, hL] at h
    | ok es =>
      simp only [detect_drift, hg, if_neg hg, hL] at h
      have h2 := DriftReport.report.inj (Except.ok.inj h)
      obtain ⟨he, hb⟩ := h2
      refine ⟨?_, ?_, hg⟩
      · rw [he]
      · rw [← he]; exact hb.symm

theorem firstBufferLen_single (vals : List ℚ) :
    firstBufferLen (singleFeatureMonitor vals) = vals.length := rfl

/-- `driftEntry` phrased with the named sub-window means. -/
theorem driftEntry_eq_means (vals : List ℚ) :
    driftEntry vals =
      if 200 ≤ vals.length then
        if olderMean vals + eps = 0 then .error ()
        else
          .ok (.stats
            (decide (|(recentMean vals - olderMean vals) / (olderMean vals + eps)| > 1 / 10))
            (|(recentMean vals - olderMean vals) / (olderMean vals + eps)|)
            (1 / 10))
      else .ok (.insufficient "Insufficient historical data") := rfl

/-- `detect_drift` unfolded, for rewriting. -/
theorem detect_drift_eq (m : ModelMonitor) :
    detect_drift m =
      if firstBufferLen m < 100 then .ok .insufficientData
      else
        match driftLoop m.feature_values with
        | .error e => .error e
        | .ok entries => .ok (.report entries (entries.any (fun p => p.2.flag))) := rfl

theorem detect_single (vals : List ℚ) (h : 100 ≤ vals.length) :
    detect_drift (singleFeatureMonitor vals) =
      match driftEntry vals with
      | .error e => .error e
      | .ok r => .ok (.report [(0, r)] r.flag) := by
  have hfl : firstBufferLen (singleFeatureMonitor vals) = vals.length := rfl
  have hg : ¬ firstBufferLen (singleFeatureMonitor vals) < 100 := by omega
  have hfv : (singleFeatureMonitor vals).feature_values = [(0, vals)] := rfl
  rw [detect_drift_eq, if_neg hg, hfv]
  cases hE : driftEntry vals with
  | error e => simp [driftLoop, hE]
  | ok r => simp [driftLoop, hE]

/-! ### Window computations on two-phase buffers -/

theorem append_drop_recent (a b : ℚ) :
    (List.replicate 100 a ++ List.replicate 100 b).drop
      ((List.replicate 100 a ++ List.replicate 100 b).length - 100)
      = List.replicate 100 b := by
  rw [List.length_append, List.length_replicate, List.length_replicate]
  have h : (100 : ℕ) + 100 - 100 = 100 := by norm_num
  rw [h]
  exact List.drop_left' (List.length_replicate _ _)

theorem append_take_older (a b : ℚ) :
    ((List.replicate 100 a ++ List.replicate 100 b).drop
      ((List.replicate 100 a ++ List.replicate 100 b).length - 200)).take 100
      = List.replicate 100 a := by
  rw [List.length_append, List.length_replicate, List.length_replicate]
  have h : (100 : ℕ) + 100 - 200 = 0 := by norm_num
  rw [h, List.drop_zero]
  exact List.take_left' (List.length_replicate _ _)

theorem valsC3_len : valsC3.length = 200 := by
  rw [valsC3, List.length_append, List.length_replicate, List.length_replicate]

theorem valsC6_len : valsC6.length = 200 := by
  rw [valsC6, List.length_append, List.length_replicate, List.length_replicate]

/-! ### Claim theorems -/

/-- Claim C10: when no feature buffer exists yet, or the first-created
feature's buffer holds fewer than 100 samples, `detect_drift` returns
the top-level insufficient-data object (which carries no `feature_drift`
map and no `any_drift_detected` field, by the shape of
`DriftReport.insufficientData`) — and this early result occurs exactly
then, since the gate inspects only the first-created feature's buffer
length. -/
theorem claim_c10_global_gate (m : ModelMonitor) :
    detect_drift m = .ok .insufficientData ↔ firstBufferLen m < 100 := by
  constructor
  · intro h
    by_contra hg
    rw [detect_drift_eq, if_neg hg] at h
    cases hL : driftLoop m.feature_values with
    | error e => rw [hL] at h; exact absurd h (by simp)
    | ok entries => rw [hL] at h; simp at h
  · intro h
    rw [detect_drift_eq, if_pos h]

/-- Claim C7: whenever the prediction buffer is empty, `get_statistics`
returns request_count 0, average_latency 0, the current error counter,
an empty feature-statistics mapping and the no-predictions status flag
(and no `prediction_counts`/`uptime_seconds` keys). -/
theorem claim_c7_empty_state (m : ModelMonitor) (now : ℚ)
    (h : m.predictions = []) :
    get_statistics m now =
      { request_count := 0
        average_latency := 0
        error_count := m.error_count
        feature_statistics := []
        prediction_counts := none
        uptime_seconds := none
        status := some "No predictions made yet" } := by
  simp [get_statistics, h]

theorem claim_c7_witness :
    get_statistics (ModelMonitor.init 1000 0) 5 =
      { request_count := 0
        average_latency := 0
        error_count := 0
        feature_statistics := []
        prediction_counts := none
        uptime_seconds := none
        status := some "No predictions made yet" } :=
  claim_c7_empty_state (ModelMonitor.init 1000 0) 5 rfl

/-- Claim C8 as stated is false: two consecutive `get_statistics` calls
with no intervening mutation disagree on `uptime_seconds`, which tracks
the wall clock (`time.time() - self.start_time`) at each call. -/
theorem claim_c8_counterexample :
    get_statistics monitorC8 0 ≠ get_statistics monitorC8 1 := by
  intro h
  have h2 := congrArg Statistics.uptime_seconds h
  have hp : monitorC8.predictions.isEmpty = false := rfl
  have hs : monitorC8.start_time = 0 := rfl
  simp only [get_statistics, hp, Bool.false_eq_true, if_false, hs, sub_zero] at h2
  have h3 : (0 : ℚ) = 1 := Option.some.inj h2
  norm_num at h3

/-- Claim C8 (amended): with no intervening `record` or `log_error`,
two `get_statistics` calls agree on every field except
`uptime_seconds`; as a pure function of the state and the clock the
snapshot is deterministic. -/
theorem claim_c8_idempotent_reads (m : ModelMonitor) (t1 t2 : ℚ) :
    statsIgnoringUptime (get_statistics m t1)
      = statsIgnoringUptime (get_statistics m t2) := by
  by_cases h : m.predictions.isEmpty <;>
    simp [get_statistics, h, statsIgnoringUptime]

/-- Claim C5 as stated is false: `log_prediction` with the negative
latency `-1` appends it to the latency buffer although `-1` is not
strictly positive — the source's `if latency:` records every nonzero
latency, not only the strictly positive ones. -/
theorem claim_c5_counterexample :
    (log_prediction (ModelMonitor.init 1000 0) [] 0 (some (-1))).latencies = [-1]
    ∧ ¬ ((0 : ℚ) < -1) := by
  constructor
  · have hne : ((-1 : ℚ) = 0) = False := by norm_num
    simp [log_prediction, ModelMonitor.init, hne, push]
  · norm_num

/-- Claim C5 (amended): the latency is appended (with window eviction)
exactly when it is present and nonzero — the source's truthiness test.
On the data model's non-negative latencies this coincides with
"strictly positive"; in particular an absent or `0.0` latency leaves
the latency buffer unchanged. -/
theorem claim_c5_latency_policy (m : ModelMonitor) (features : List ℚ)
    (prediction : Int) :
    (log_prediction m features prediction none).latencies = m.latencies
    ∧ (log_prediction m features prediction (some 0)).latencies = m.latencies
    ∧ ∀ v : ℚ, v ≠ 0 →
        (log_prediction m features prediction (some v)).latencies
          = push m.window_size m.latencies v := by
  refine ⟨rfl, ?_, ?_⟩
  · simp [log_prediction]
  · intro v hv
    simp [log_prediction, hv]

theorem claim_c5_witness :
    (log_prediction (ModelMonitor.init 3 0) [2] 1 none).latencies = []
    ∧ (log_prediction (ModelMonitor.init 3 0) [2] 1 (some 0)).latencies = []
    ∧ (log_prediction (ModelMonitor.init 3 0) [2] 1 (some 7)).latencies
        = push 3 [] 7 := by
  obtain ⟨h1, h2, h3⟩ := claim_c5_latency_policy (ModelMonitor.init 3 0) [2] 1
  exact ⟨h1, h2, h3 7 (by norm_num)⟩

/-- Claim C4 as stated is false: on 200 identical samples of value
`-1e-8` the relative-change denominator `older_mean + 1e-8` is exactly
zero, so the division fails (Python `ZeroDivisionError`) instead of
returning a normal report — "never raises an exception" does not hold
for every identical-value buffer. -/
theorem claim_c4_counterexample :
    detect_drift (singleFeatureMonitor (List.replicate 200 (-eps))) = .error () := by
  rw [detect_single _ (by rw [List.length_replicate]; norm_num),
    driftEntry_replicate_zero_denom (-eps) (by ring)]

/-- Claim C4 (amended): `detect_drift` on a single feature with 50
samples reports the global "Insufficient data" object; with 150 samples
it reports "Insufficient historical data" for the feature; with 200
identical samples of any value other than `-1e-8` it reports
`drift_detected = false` with `relative_change = 0`; the first two
scenarios never fail, and the third fails only at exactly `-1e-8`,
where the unguarded denominator `older_mean + 1e-8` is zero. -/
theorem claim_c4_insufficiency_scenarios (v : ℚ) :
    detect_drift (singleFeatureMonitor (List.replicate 50 v)) = .ok .insufficientData
    ∧ detect_drift (singleFeatureMonitor (List.replicate 150 v))
        = .ok (.report [(0, .insufficient "Insufficient historical data")] false)
    ∧ (v + eps ≠ 0 →
        detect_drift (singleFeatureMonitor (List.replicate 200 v))
          = .ok (.report [(0, .stats false 0 (1 / 10))] false)) := by
  refine ⟨?_, ?_, ?_⟩
  · rw [detect_drift_eq,
      if_pos (by rw [firstBufferLen_single, List.length_replicate]; norm_num)]
  · rw [detect_single _ (by rw [List.length_replicate]; norm_num),
      driftEntry_short _ (by rw [List.length_replicate]; norm_num)]
    rfl
  · intro h
    rw [detect_single _ (by rw [List.length_replicate]; norm_num),
      driftEntry_replicate_200 v h]
    rfl

theorem claim_c4_witness :
    detect_drift (singleFeatureMonitor (List.replicate 50 (1 : ℚ)))
        = .ok .insufficientData
    ∧ detect_drift (singleFeatureMonitor (List.replicate 150 (1 : ℚ)))
        = .ok (.report [(0, .insufficient "Insufficient historical data")] false)
    ∧ detect_drift (singleFeatureMonitor (List.replicate 200 (1 : ℚ)))
        = .ok (.report [(0, .stats false 0 (1 / 10))] false) := by
  obtain ⟨h1, h2, h3⟩ := claim_c4_insufficiency_scenarios 1
  exact ⟨h1, h2, h3 (by norm_num [eps])⟩

/-- Claim C2 as stated is false: in a monitor whose first feature has
200 samples and whose second has only 50, the second feature is not
reported with the "insufficient data" state the claim requires for a
sub-100 buffer — the per-feature loop reports it as "Insufficient
historical data", because the 100-sample requirement exists only in the
global gate on the first-created buffer. -/
theorem claim_c2_counterexample :
    detect_drift monitorC2 =
      .ok (.report [(0, .stats false 0 (1 / 10)),
          (1, .insufficient "Insufficient historical data")] false)
    ∧ "Insufficient historical data" ≠ "Insufficient data" := by
  constructor
  · have h0 : driftEntry (List.replicate 200 (1 : ℚ)) = .ok (.stats false 0 (1 / 10)) :=
      driftEntry_replicate_200 1 (by norm_num [eps])
    have h1 : driftEntry (List.replicate 50 (1 : ℚ))
        = .ok (.insufficient "Insufficient historical data") :=
      driftEntry_short _ (by simp)
    have hfl : firstBufferLen monitorC2 = (List.replicate 200 (1 : ℚ)).length := rfl
    rw [List.length_replicate] at hfl
    have hg : ¬ firstBufferLen monitorC2 < 100 := by omega
    have hfv : monitorC2.feature_values
        = [(0, List.replicate 200 1), (1, List.replicate 50 1)] := rfl
    rw [detect_drift_eq, if_neg hg, hfv]
    simp only [driftLoop, h0, h1]
    simp [FeatureReport.flag]
  · simp

/-- Claim C2 (amended): `detect_drift` gates globally on the
first-created feature's buffer — below 100 samples it returns the
global insufficient-data object and evaluates no feature at all;
otherwise every feature is evaluated, a feature with fewer than 200
samples (even below 100) is reported "Insufficient historical data",
and the aggregate is the per-feature map together with
`any_drift_detected` = the OR of the per-feature flags. -/
theorem claim_c2_per_feature (m : ModelMonitor) :
    (firstBufferLen m < 100 → detect_drift m = .ok .insufficientData)
    ∧ ∀ entries b, detect_drift m = .ok (.report entries b) →
        b = entries.any (fun p => p.2.flag)
        ∧ ∀ k vals, (k, vals) ∈ m.feature_values → vals.length < 200 →
            (k, FeatureReport.insufficient "Insufficient historical data") ∈ entries := by
  constructor
  · intro h
    rw [detect_drift_eq, if_pos h]
  · intro entries b h
    obtain ⟨hL, hb, _⟩ := detect_drift_report_inv m entries b h
    refine ⟨hb, ?_⟩
    intro k vals hmem hlen
    obtain ⟨r, hr, hrm⟩ := driftLoop_ok_mem m.feature_values entries hL k vals hmem
    rw [driftEntry_short vals hlen] at hr
    have hri := Except.ok.inj hr
    rw [← hri] at hrm
    exact hrm

theorem claim_c2_witness :
    detect_drift (singleFeatureMonitor (List.replicate 50 (2 : ℚ)))
        = .ok .insufficientData
    ∧ (false = ([((0 : Nat), FeatureReport.insufficient "Insufficient historical data")].any
          (fun p => p.2.flag))
        ∧ ((0 : Nat), FeatureReport.insufficient "Insufficient historical data")
            ∈ [((0 : Nat), FeatureReport.insufficient "Insufficient historical data")]) := by
  have hdet : detect_drift (singleFeatureMonitor (List.replicate 150 (2 : ℚ)))
      = .ok (.report [(0, .insufficient "Insufficient historical data")] false) := by
    rw [detect_single _ (by rw [List.length_replicate]; norm_num),
      driftEntry_short _ (by rw [List.length_replicate]; norm_num)]
    rfl
  have hpart := (claim_c2_per_feature (singleFeatureMonitor (List.replicate 150 (2 : ℚ)))).2
    [(0, .insufficient "Insufficient historical data")] false hdet
  refine ⟨(claim_c2_per_feature (singleFeatureMonitor (List.replicate 50 (2 : ℚ)))).1
    (by rw [firstBufferLen_single, List.length_replicate]; norm_num), hpart.1, ?_⟩
  exact hpart.2 0 (List.replicate 150 2)
    (List.mem_cons_self _ _) (by rw [List.length_replicate]; norm_num)

/-- Claim C3 as stated is false: the source computes
`abs((recent_mean - older_mean) / (older_mean + 1e-8))` — the
denominator is `older_mean + 1e-8` without an absolute value, so for
the negative older mean `-1/2` the reported relative change
`1/(1/2 - 1e-8)` differs from the claimed
`|recent - older| / (|older| + 1e-8) = 1/(1/2 + 1e-8)`. -/
theorem claim_c3_counterexample :
    detect_drift (singleFeatureMonitor valsC3)
      = .ok (.report [(0, .stats true (100000000 / 49999999) (1 / 10))] true)
    ∧ (100000000 : ℚ) / 49999999
        ≠ |(1 : ℚ) / 2 - (-(1 / 2))| / (|(-(1 / 2) : ℚ)| + eps) := by
  constructor
  · have hE : driftEntry valsC3 = .ok (.stats true (100000000 / 49999999) (1 / 10)) := by
      rw [driftEntry_eq, if_pos (by rw [valsC3_len])]
      have ho : (valsC3.drop (valsC3.length - 200)).take 100
          = List.replicate 100 (-(1 / 2) : ℚ) := by
        rw [valsC3]; exact append_take_older _ _
      have hr : valsC3.drop (valsC3.length - 100) = List.replicate 100 ((1 / 2) : ℚ) := by
        rw [valsC3]; exact append_drop_recent _ _
      rw [ho, hr, mean_replicate 100 ((1 / 2) : ℚ) (by norm_num),
        mean_replicate 100 (-(1 / 2) : ℚ) (by norm_num)]
      rw [if_neg (by rw [eps]; norm_num)]
      have hval : ((1 : ℚ) / 2 - (-(1 / 2))) / ((-(1 / 2)) + eps)
          = -(100000000 / 49999999) := by
        rw [eps]; norm_num
      rw [hval, abs_neg, abs_of_pos (by norm_num : (0 : ℚ) < 100000000 / 49999999)]
      rw [decide_eq_true (by norm_num : (100000000 : ℚ) / 49999999 > 1 / 10)]
    rw [detect_single valsC3 (by rw [valsC3_len]; norm_num), hE]
    rfl
  · have e1 : |(1 : ℚ) / 2 - (-(1 / 2))| = 1 := by
      rw [abs_of_pos (by norm_num : (0 : ℚ) < 1 / 2 - (-(1 / 2)))]
      norm_num
    have e2 : |(-(1 / 2) : ℚ)| = 1 / 2 := by
      rw [abs_of_neg (by norm_num : (-(1 / 2) : ℚ) < 0)]
      norm_num
    rw [e1, e2, eps]
    norm_num

/-- Claim C3 (amended): for a feature with at least 200 samples the
code computes `relative_change = |recent_mean - older_mean| / |older_mean + 1e-8|`
(the absolute value is applied to the whole quotient, not to the
denominator's mean); when `older_mean + 1e-8 = 0` — possible for the
negative mean `-1e-8` — the division fails instead; and only for
non-negative older means does the denominator coincide with the
claimed `|older_mean| + 1e-8`. -/
theorem claim_c3_relative_change (vals : List ℚ) (h : 200 ≤ vals.length) :
    (olderMean vals + eps ≠ 0 →
      ∃ d, detect_drift (singleFeatureMonitor vals)
        = .ok (.report [(0, .stats d
            (|recentMean vals - olderMean vals| / |olderMean vals + eps|) (1 / 10))] d))
    ∧ (olderMean vals + eps = 0 →
        detect_drift (singleFeatureMonitor vals) = .error ())
    ∧ (0 ≤ olderMean vals →
        |recentMean vals - olderMean vals| / |olderMean vals + eps|
          = |recentMean vals - olderMean vals| / (|olderMean vals| + eps)) := by
  refine ⟨?_, ?_, ?_⟩
  · intro h1
    refine ⟨decide (|(recentMean vals - olderMean vals) / (olderMean vals + eps)| > 1 / 10), ?_⟩
    have hE : driftEntry vals = .ok (.stats
        (decide (|(recentMean vals - olderMean vals) / (olderMean vals + eps)| > 1 / 10))
        (|(recentMean vals - olderMean vals) / (olderMean vals + eps)|) (1 / 10)) := by
      rw [driftEntry_eq_means, if_pos h, if_neg h1]
    rw [detect_single vals (by omega), hE, abs_div]
    rfl
  · intro h1
    have hE : driftEntry vals = .error () := by
      rw [driftEntry_eq_means, if_pos h, if_pos h1]
    rw [detect_single vals (by omega), hE]
  · intro h1
    have h2 : (0 : ℚ) < olderMean vals + eps := by
      have : (0 : ℚ) < eps := by rw [eps]; norm_num
      linarith
    rw [abs_of_pos h2, abs_of_nonneg h1]

theorem claim_c3_witness :
    (∃ d, detect_drift (singleFeatureMonitor (List.replicate 200 (3 : ℚ)))
        = .ok (.report [(0, .stats d
            (|recentMean (List.replicate 200 (3 : ℚ))
              - olderMean (List.replicate 200 (3 : ℚ))|
              / |olderMean (List.replicate 200 (3 : ℚ)) + eps|) (1 / 10))] d))
    ∧ |recentMean (List.replicate 200 (3 : ℚ)) - olderMean (List.replicate 200 (3 : ℚ))|
          / |olderMean (List.replicate 200 (3 : ℚ)) + eps|
        = |recentMean (List.replicate 200 (3 : ℚ)) - olderMean (List.replicate 200 (3 : ℚ))|
          / (|olderMean (List.replicate 200 (3 : ℚ))| + eps) := by
  have hom : olderMean (List.replicate 200 (3 : ℚ)) = 3 := by
    unfold olderMean
    rw [replicate_200_older]
    exact mean_replicate 100 3 (by norm_num)
  obtain ⟨h1, h2, h3⟩ :=
    claim_c3_relative_change (List.replicate 200 (3 : ℚ)) (by rw [List.length_replicate])
  exact ⟨h1 (by rw [hom, eps]; norm_num), h3 (by rw [hom]; norm_num)⟩

/-- Claim C6 as stated is false: `drift_threshold` is not configuration
set at construction — `detect_drift` hard-codes `0.1` — so on a buffer
with relative change `≈ 0.2` the code flags drift although the
spec-described detector configured with threshold `1` does not. -/
theorem claim_c6_counterexample :
    detect_drift (singleFeatureMonitor valsC6)
      = .ok (.report [(0, .stats true (100000000 / 500000001) (1 / 10))] true)
    ∧ detect_drift_spec (singleFeatureMonitor valsC6) 1
      = .report [(0, .stats false (100000000 / 500000001) 1)] false := by
  have ho : (valsC6.drop (valsC6.length - 200)).take 100
      = List.replicate 100 ((5 : ℚ)) := by
    rw [valsC6]; exact append_take_older _ _
  have hr : valsC6.drop (valsC6.length - 100) = List.replicate 100 ((6 : ℚ)) := by
    rw [valsC6]; exact append_drop_recent _ _
  constructor
  · have hE : driftEntry valsC6
        = .ok (.stats true (100000000 / 500000001) (1 / 10)) := by
      rw [driftEntry_eq, if_pos (by rw [valsC6_len])]
      rw [ho, hr, mean_replicate 100 ((6 : ℚ)) (by norm_num),
        mean_replicate 100 ((5 : ℚ)) (by norm_num)]
      rw [if_neg (by rw [eps]; norm_num)]
      have hval : ((6 : ℚ) - 5) / ((5 : ℚ) + eps) = 100000000 / 500000001 := by
        rw [eps]; norm_num
      rw [hval, abs_of_pos (by norm_num : (0 : ℚ) < 100000000 / 500000001)]
      rw [decide_eq_true (by norm_num : (100000000 : ℚ) / 500000001 > 1 / 10)]
    rw [detect_single valsC6 (by rw [valsC6_len]; norm_num), hE]
    rfl
  · have hrm : recentMean valsC6 = 6 := by
      unfold recentMean
      rw [hr]
      exact mean_replicate 100 6 (by norm_num)
    have hom : olderMean valsC6 = 5 := by
      unfold olderMean
      rw [ho]
      exact mean_replicate 100 5 (by norm_num)
    have hs : specEntry 1 (0, valsC6)
        = (0, .stats false (100000000 / 500000001) 1) := by
      show (if valsC6.length < 100 then
          ((0 : Nat), FeatureReport.insufficient "Insufficient data")
        else if valsC6.length < 200 then
          ((0 : Nat), FeatureReport.insufficient "Insufficient historical data")
        else ((0 : Nat), FeatureReport.stats
          (decide (|recentMean valsC6 - olderMean valsC6|
            / (|olderMean valsC6| + eps) > 1))
          (|recentMean valsC6 - olderMean valsC6| / (|olderMean valsC6| + eps)) 1))
        = (0, .stats false (100000000 / 500000001) 1)
      rw [valsC6_len]
      rw [if_neg (by norm_num), if_neg (by norm_num)]
      rw [hrm, hom]
      have habs : |(6 : ℚ) - 5| / (|(5 : ℚ)| + eps) = 100000000 / 500000001 := by
        rw [abs_of_pos (by norm_num : (0 : ℚ) < (6 : ℚ) - 5),
          abs_of_pos (by norm_num : (0 : ℚ) < (5 : ℚ)), eps]
        norm_num
      rw [habs, decide_eq_false (by norm_num : ¬ ((100000000 : ℚ) / 500000001 > 1))]
    have hfv : (singleFeatureMonitor valsC6).feature_values = [(0, valsC6)] := rfl
    unfold detect_drift_spec
    rw [hfv]
    simp only [List.map_cons, List.map_nil, hs]
    simp [FeatureReport.flag]

/-- Claim C6 (amended): the drift threshold is the constant `0.1`
hard-coded inside `detect_drift` (only `window_size` is a construction
parameter), and every computed per-feature entry carries threshold
`0.1` with its flag set exactly when the relative change exceeds
`0.1`. -/
theorem claim_c6_threshold (m : ModelMonitor) :
    ∀ entries b, detect_drift m = .ok (.report entries b) →
      ∀ p ∈ entries, ∀ d rc th, p.2 = FeatureReport.stats d rc th →
        th = 1 / 10 ∧ (d = true ↔ rc > 1 / 10) := by
  intro entries b h p hp d rc th hstats
  obtain ⟨hL, _, _⟩ := detect_drift_report_inv m entries b h
  obtain ⟨vals, _, hD⟩ := driftLoop_entries_src m.feature_values entries hL p hp
  rw [hstats] at hD
  exact driftEntry_stats_inv vals d rc th hD

theorem claim_c6_witness :
    detect_drift (singleFeatureMonitor (List.replicate 200 (2 : ℚ)))
      = .ok (.report [(0, .stats false 0 (1 / 10))] false)
    ∧ ((1 : ℚ) / 10 = 1 / 10 ∧ (false = true ↔ (0 : ℚ) > 1 / 10)) := by
  have hdet : detect_drift (singleFeatureMonitor (List.replicate 200 (2 : ℚ)))
      = .ok (.report [(0, .stats false 0 (1 / 10))] false) := by
    rw [detect_single _ (by rw [List.length_replicate]; norm_num),
      driftEntry_replicate_200 2 (by rw [eps]; norm_num)]
    rfl
  exact ⟨hdet, claim_c6_threshold (singleFeatureMonitor (List.replicate 200 (2 : ℚ)))
    [(0, .stats false 0 (1 / 10))] false hdet
    (0, .stats false 0 (1 / 10)) (List.mem_cons_self _ _) false 0 (1 / 10) rfl⟩

/-- Claim C1: every buffer is capacity-bounded by the window size `W`:
after any sequence of record calls (each carrying a nonzero latency and
a `d`-entry feature vector, so that every buffer receives one value per
call) the prediction, latency and per-feature buffer lengths all equal
`min N W`; pushing `W + 1` distinct values into a fresh buffer leaves
exactly the last `W` in insertion order, excluding the first; and
`push` never produces a buffer longer than `W`. -/
theorem claim_c1_bounded_fifo (W d : Nat) (t0 : ℚ) (es : List PredictionEvent) :
    (recordAll (ModelMonitor.init W t0) es).predictions.length = min es.length W
    ∧ ((∀ e ∈ es, ∃ v, e.latency = some v ∧ v ≠ 0) →
        (recordAll (ModelMonitor.init W t0) es).latencies.length = min es.length W)
    ∧ ((∀ e ∈ es, e.features.length = d) → es ≠ [] →
        ((recordAll (ModelMonitor.init W t0) es).feature_values.length = d
          ∧ ∀ p ∈ (recordAll (ModelMonitor.init W t0) es).feature_values,
              p.2.length = min es.length W))
    ∧ (∀ (x : ℚ) (xs : List ℚ), (x :: xs).length = W + 1 → (x :: xs).Nodup →
        List.foldl (push W) [] (x :: xs) = xs ∧ x ∉ xs)
    ∧ ∀ (buf : List ℚ) (y : ℚ), (push W buf y).length ≤ W := by
  refine ⟨?_, ?_, ?_, ?_, fun buf y => push_le_capacity W buf y⟩
  · rw [recordAll_predictions es (ModelMonitor.init W t0)]
    have hw : (ModelMonitor.init W t0).window_size = W := rfl
    have hp : (ModelMonitor.init W t0).predictions = [] := rfl
    rw [hw, hp, foldl_push_nil_length, List.length_map]
  · intro hl
    have h0 : (ModelMonitor.init W t0).latencies.length = 0 := rfl
    have := recordAll_latencies_length W es (ModelMonitor.init W t0) rfl
      (by rw [h0]; exact Nat.zero_le W) hl
    omega
  · intro hd hne
    obtain ⟨e, es', rfl⟩ := List.exists_cons_of_ne_nil hne
    have hfv := recordAll_feature_values W (e :: es') (ModelMonitor.init W t0) [] rfl rfl
    rw [List.foldl_cons] at hfv
    have hfresh := zipPush_fresh_length W e.features
    have hstack := stack_fold_length W d es' (zipPush W [] e.features) 1
      (fun e' he' => hd e' (List.mem_cons_of_mem e he'))
      (by rw [hfresh.1, hd e (List.mem_cons_self e es')])
      hfresh.2
    constructor
    · rw [hfv, canonFrom_length, hstack.1]
    · intro p hp
      rw [hfv] at hp
      have hpb := canonFrom_mem _ 0 p hp
      rw [hstack.2 p.2 hpb, List.length_cons]
      omega
  · intro x xs hlen hnd
    constructor
    · have hfold := foldl_push_eq_drop W (x :: xs) [] (by simp)
      have hidx : List.length ([] : List ℚ) + (x :: xs).length - W = 1 := by
        rw [hlen]
        simp only [List.length_nil]
        omega
      rw [hfold, hidx, List.nil_append]
      rfl
    · exact (List.nodup_cons.mp hnd).1

theorem claim_c1_witness :
    (recordAll (ModelMonitor.init 2 0) eventsC1).predictions.length = min eventsC1.length 2
    ∧ (recordAll (ModelMonitor.init 2 0) eventsC1).latencies.length = min eventsC1.length 2
    ∧ ((recordAll (ModelMonitor.init 2 0) eventsC1).feature_values.length = 1
        ∧ ∀ p ∈ (recordAll (ModelMonitor.init 2 0) eventsC1).feature_values,
            p.2.length = min eventsC1.length 2)
    ∧ (List.foldl (push 2) [] [(10 : ℚ), 20, 30] = [20, 30]
        ∧ (10 : ℚ) ∉ [(20 : ℚ), 30])
    ∧ (push 2 [(10 : ℚ), 20] 30).length ≤ 2 := by
  obtain ⟨h1, h2, h3, h4, h5⟩ := claim_c1_bounded_fifo 2 1 0 eventsC1
  refine ⟨h1, h2 ?_, h3 ?_ ?_, h4 10 [20, 30] rfl (by norm_num [List.nodup_cons]),
    h5 [10, 20] 30⟩
  · intro e he
    simp only [eventsC1, List.mem_cons, List.not_mem_nil, or_false] at he
    rcases he with rfl | rfl | rfl
    · exact ⟨1, rfl, by norm_num⟩
    · exact ⟨2, rfl, by norm_num⟩
    · exact ⟨3, rfl, by norm_num⟩
  · intro e he
    simp only [eventsC1, List.mem_cons, List.not_mem_nil, or_false] at he
    rcases he with rfl | rfl | rfl <;> rfl
  · simp [eventsC1]

end Monitoring
